import Mathlib

/-!
Verification of the AI-support-dashboard repository.

This file shallowly embeds the code relevant to the frozen claims:

* `src/client/src/hooks/useCache.ts` — the TTL cache hook (`useCache`) and the
  `withCache` higher-order wrapper.  JavaScript numbers used as timestamps and
  TTLs are modelled as integers; the optional `ttl` field is `Option ℤ` and the
  JavaScript falsiness test `!item.ttl` is modelled by `jsFalsyTtl` (true for
  `undefined` and for `0`).  The three storage engines (memory map,
  localStorage, sessionStorage) share one abstract key-value store
  `CacheStore`, since the hook applies the same expiry logic to all of them.

* `src/server/src/services/openai.ts` — `KnowledgeService` (sample data,
  embeddings, cosine-similarity search) and `OpenAIService.analyzeSentiment`.
  Embedding vectors are lists of reals.  The OpenAI embeddings API is modelled
  as an environment `env : String → Option (List ℝ)` (`none` = the HTTP call
  failed); `await`/`try`/`catch` structure is made explicit with `Except`, and
  the rate-limit sleeps become an explicit event trace.

* the `VirtualizedList` component — pixel quantities are rationals, and the
  rendered output is the list of `renderItem` applications.
-/

/-! ## useCache / withCache (src/client/src/hooks/useCache.ts) -/

/-- `CacheItem<T>`: `{ data: T, timestamp: number, ttl?: number }`. -/
structure CacheItem (T : Type) where
  data : T
  timestamp : ℤ
  ttl : Option ℤ
  deriving Repr

/-- JavaScript falsiness of the optional numeric `ttl` field: `!item.ttl` is
true when `ttl` is `undefined` or `0`. -/
def jsFalsyTtl (ttl : Option ℤ) : Bool :=
  match ttl with
  | none => true
  | some t => t = 0

/-- `isExpired` from `useCache`:
`if (!item.ttl) return false; return now - item.timestamp > item.ttl`. -/
def isExpired {T : Type} (now : ℤ) (item : CacheItem T) : Bool :=
  if jsFalsyTtl item.ttl then false
  else decide (item.ttl.getD 0 < now - item.timestamp)

/-- The freshness test of `withCache`:
`cache && (!cache.ttl || now - cache.timestamp < cache.ttl)`, for an entry
that is present. -/
def withCacheFresh {T : Type} (now : ℤ) (item : CacheItem T) : Bool :=
  if jsFalsyTtl item.ttl then true
  else decide (now - item.timestamp < item.ttl.getD 0)

/-- The backing store (memory map / localStorage / sessionStorage), as a map
from keys to stored items.  `JSON.parse ∘ JSON.stringify` is the identity in
this model. -/
def CacheStore (T : Type) : Type := String → Option (CacheItem T)

/-- `removeCacheItem`: delete the entry for `key`. -/
def removeCacheItem {T : Type} (key : String) (s : CacheStore T) : CacheStore T :=
  fun k => if k = key then none else s k

/-- `getCache`: look the key up; on a hit check expiry, removing the entry and
returning `null` when it is expired.  Returns the value produced together with
the store state after the call. -/
def getCache {T : Type} (now : ℤ) (key : String) (s : CacheStore T) :
    Option T × CacheStore T :=
  match s key with
  | none => (none, s)
  | some item =>
      if isExpired now item then (none, removeCacheItem key s)
      else (some item.data, s)

/-- A store holding a single item with `ttl: 0`, used to exhibit the
JavaScript-falsiness corner of the expiry check. -/
def zeroTtlStore : CacheStore ℤ := fun _ => some ⟨7, 0, some 0⟩

/-- A store holding a single fresh item (ttl 10). -/
def zeroTtlFreshStore : CacheStore ℤ := fun _ => some ⟨3, 0, some 10⟩

/-! ## KnowledgeService.calculateCosineSimilarity
(src/server/src/services/openai.ts) -/

/-- `calculateCosineSimilarity(vectorA, vectorB)`: returns 0 on a length
mismatch; otherwise accumulates the dot product and both squared norms in a
single pass, returns 0 when either squared norm is 0, and otherwise divides
the dot product by the product of the square roots. -/
noncomputable def calculateCosineSimilarity (vectorA vectorB : List ℝ) : ℝ :=
  if vectorA.length ≠ vectorB.length then 0
  else
    let dotProduct := (List.zipWith (fun x y => x * y) vectorA vectorB).sum
    let normA := (vectorA.map fun x => x * x).sum
    let normB := (vectorB.map fun x => x * x).sum
    if normA = 0 ∨ normB = 0 then 0
    else dotProduct / (Real.sqrt normA * Real.sqrt normB)

/-- The standard Euclidean norm of a list of reals: the square root of the sum
of the squares of its entries. -/
noncomputable def euclideanNorm (v : List ℝ) : ℝ :=
  Real.sqrt (∑ i : Fin v.length, v.get i ^ 2)

/-! ## KnowledgeService data model and search
(src/server/src/services/openai.ts)

The OpenAI embeddings API is an environment `env : String → Option (List ℝ)`;
`env text = none` models a failed HTTP call, in which case
`generateEmbedding` catches the error and returns the empty vector. -/

/-- `KnowledgeArticle` (src/server/src/types/shared.ts).  `Date` values only
occur as opaque data and are modelled by their source string. -/
structure KnowledgeArticle where
  id : String
  title : String
  content : String
  category : String
  tags : List String
  relevanceScore : Option ℝ
  lastUpdated : String
  embedding : Option (List ℝ)

/-- `KnowledgeSearchRequest` (src/server/src/types/shared.ts). -/
structure KnowledgeSearchRequest where
  query : String
  limit : Option ℕ
  categories : Option (List String)
  minRelevance : Option ℝ

/-- The five sample articles installed by `initializeSampleData` (called from
the `KnowledgeService` constructor), each with an empty embedding. -/
def sampleArticles : List KnowledgeArticle :=
  [{ id := "article-1",
     title := "How to Process Returns and Refunds",
     content := "To process a return or refund, first verify the order details in our system. Check the return policy timeframe (30 days for most items). For eligible returns, generate a return shipping label and provide the customer with tracking information. Once we receive the item, inspect it for damage and process the refund within 3-5 business days.",
     category := "Returns & Refunds",
     tags := ["returns", "refunds", "policy", "shipping"],
     relevanceScore := none,
     lastUpdated := "2024-01-15",
     embedding := some [] },
   { id := "article-2",
     title := "Handling Shipping Delays and Issues",
     content := "When customers report shipping delays, first check the tracking information in our carrier system. Common causes include weather delays, incorrect addresses, or carrier issues. Apologize for the inconvenience and provide updated tracking information. For delays over 7 days, offer expedited shipping on the replacement order or a partial refund.",
     category := "Shipping",
     tags := ["shipping", "delays", "tracking", "carrier"],
     relevanceScore := none,
     lastUpdated := "2024-01-10",
     embedding := some [] },
   { id := "article-3",
     title := "Account and Password Reset Procedures",
     content := "To help customers reset their passwords, guide them to the \"Forgot Password\" link on the login page. They will receive an email with a reset link valid for 24 hours. If they do not receive the email, check if it went to spam or verify the email address on file. For account lockouts, verify the customer identity and manually unlock the account in the admin panel.",
     category := "Account Support",
     tags := ["password", "account", "reset", "login", "email"],
     relevanceScore := none,
     lastUpdated := "2024-01-12",
     embedding := some [] },
   { id := "article-4",
     title := "Product Warranty and Technical Support",
     content := "Our products come with a 1-year manufacturer warranty covering defects and malfunctions. For warranty claims, collect the order number, product serial number, and description of the issue. For technical issues, first walk through basic troubleshooting steps. If the issue persists, escalate to our technical team or offer a warranty replacement.",
     category := "Technical Support",
     tags := ["warranty", "technical", "troubleshooting", "replacement"],
     relevanceScore := none,
     lastUpdated := "2024-01-08",
     embedding := some [] },
   { id := "article-5",
     title := "Billing and Payment Issues",
     content := "For billing disputes, first review the transaction details and verify the charge amount. Common issues include duplicate charges, incorrect amounts, or unrecognized transactions. For payment failures, check if the payment method is valid and has sufficient funds. Offer alternative payment methods and update the customer on any pending charges.",
     category := "Billing",
     tags := ["billing", "payment", "disputes", "charges", "credit card"],
     relevanceScore := none,
     lastUpdated := "2024-01-14",
     embedding := some [] }]

/-- `generateEmbedding`: calls the embeddings API and returns the vector; on
an API error the `catch` block returns the empty array. -/
def generateEmbedding (env : String → Option (List ℝ)) (text : String) :
    List ℝ :=
  (env text).getD []

/-- The laziness test of `ensureArticleEmbeddings`:
`!article.embedding || article.embedding.length === 0`. -/
def needsEmbedding (a : KnowledgeArticle) : Bool :=
  match a.embedding with
  | none => true
  | some l => l.isEmpty

/-- The text embedded for an article: `` `${article.title}\n\n${article.content}` ``. -/
def embeddingText (a : KnowledgeArticle) : String :=
  a.title ++ "\n\n" ++ a.content

/-- Observable effects of `ensureArticleEmbeddings`: embedding API calls and
`setTimeout` sleeps (in milliseconds). -/
inductive EmbedEvent where
  | apiCall (text : String)
  | sleepMs (ms : ℕ)
  deriving Repr, DecidableEq

/-- `ensureArticleEmbeddings`: for each article lacking an embedding, compute
one from its title and content and then sleep 100ms; other articles are left
untouched.  Returns the updated article list together with the event trace. -/
def ensureArticleEmbeddings (env : String → Option (List ℝ)) :
    List KnowledgeArticle → List KnowledgeArticle × List EmbedEvent
  | [] => ([], [])
  | a :: rest =>
      let r := ensureArticleEmbeddings env rest
      if needsEmbedding a then
        ({ a with embedding := some (generateEmbedding env (embeddingText a)) } :: r.1,
          EmbedEvent.apiCall (embeddingText a) :: EmbedEvent.sleepMs 100 :: r.2)
      else (a :: r.1, r.2)

/-- The scoring pass of `searchArticles`:
`articles.map(article => ({...article, relevanceScore: cos(queryEmbedding, article.embedding!)}))`.
Dereferencing `article.embedding!` when the field is `undefined` would make
the similarity computation throw, which is modelled by `Except.error`. -/
noncomputable def scoreArticles (queryEmbedding : List ℝ) :
    List KnowledgeArticle → Except Unit (List KnowledgeArticle)
  | [] => Except.ok []
  | a :: rest =>
      match a.embedding with
      | none => Except.error ()
      | some e =>
          match scoreArticles queryEmbedding rest with
          | Except.error err => Except.error err
          | Except.ok scored =>
              Except.ok
                ({ a with
                    relevanceScore :=
                      some (calculateCosineSimilarity queryEmbedding e) } ::
                  scored)

/-- The filter predicate of `searchArticles`: drop articles scoring below
`minRelevance` (default 0.7); when a nonempty category list is supplied, keep
only articles whose category it contains. -/
noncomputable def keepArticle (req : KnowledgeSearchRequest)
    (a : KnowledgeArticle) : Bool :=
  if decide (a.relevanceScore.getD 0 < req.minRelevance.getD (7 / 10 : ℝ)) then
    false
  else
    match req.categories with
    | some cats => if 0 < cats.length then cats.contains a.category else true
    | none => true

/-- The sort comparator of `searchArticles`:
`(a, b) => (b.relevanceScore || 0) - (a.relevanceScore || 0)`, i.e. `a` may
precede `b` exactly when `b`'s score is at most `a`'s. -/
noncomputable def relevanceDescending (a b : KnowledgeArticle) : Bool :=
  decide (b.relevanceScore.getD 0 ≤ a.relevanceScore.getD 0)

/-- The body of `searchArticles` inside its `try` block. -/
noncomputable def searchBody (env : String → Option (List ℝ))
    (req : KnowledgeSearchRequest) (arts : List KnowledgeArticle) :
    Except Unit (List KnowledgeArticle) :=
  let limit := req.limit.getD 5
  let queryEmbedding := generateEmbedding env req.query
  let articles := (ensureArticleEmbeddings env arts).1
  match scoreArticles queryEmbedding articles with
  | Except.error e => Except.error e
  | Except.ok scored =>
      Except.ok
        (((scored.filter (keepArticle req)).mergeSort relevanceDescending).take
          limit)

/-- `searchArticles`: the body wrapped in `try`/`catch`, the catch returning
the empty array. -/
noncomputable def searchArticles (env : String → Option (List ℝ))
    (req : KnowledgeSearchRequest) (arts : List KnowledgeArticle) :
    List KnowledgeArticle :=
  match searchBody env req arts with
  | Except.ok v => v
  | Except.error _ => []

/-- `getAllArticles`: every article, with the embedding stripped. -/
def getAllArticles (arts : List KnowledgeArticle) : List KnowledgeArticle :=
  arts.map fun a => { a with embedding := none }

/-- `getArticleById`: find by id; on a hit, strip the embedding. -/
def getArticleById (id : String) (arts : List KnowledgeArticle) :
    Option KnowledgeArticle :=
  (arts.find? fun a => a.id == id).map fun a => { a with embedding := none }

/-- `getArticlesByCategory`: filter by category and strip the embeddings. -/
def getArticlesByCategory (category : String) (arts : List KnowledgeArticle) :
    List KnowledgeArticle :=
  (arts.filter fun a => a.category == category).map fun a =>
    { a with embedding := none }

/-- The articles produced by a successful scoring pass over the ensured
store. -/
noncomputable def scoredArticles (env : String → Option (List ℝ))
    (req : KnowledgeSearchRequest) (arts : List KnowledgeArticle) :
    List KnowledgeArticle :=
  ((ensureArticleEmbeddings env arts).1).map fun a =>
    { a with
        relevanceScore :=
          some (calculateCosineSimilarity (generateEmbedding env req.query)
            (a.embedding.getD [])) }

/-- The value computed by `searchArticles` when nothing throws. -/
noncomputable def searchResult (env : String → Option (List ℝ))
    (req : KnowledgeSearchRequest) (arts : List KnowledgeArticle) :
    List KnowledgeArticle :=
  (((scoredArticles env req arts).filter (keepArticle req)).mergeSort
    relevanceDescending).take (req.limit.getD 5)

/-- A totally failing embeddings API: every HTTP call errors out. -/
def envFail : String → Option (List ℝ) := fun _ => none

/-- A search request leaving every field at its default. -/
noncomputable def reqDefault : KnowledgeSearchRequest :=
  ⟨"q", none, none, none⟩

/-- A search request with an explicit relevance threshold of 0. -/
noncomputable def reqZeroMinRel : KnowledgeSearchRequest :=
  ⟨"q", none, none, some 0⟩

/-- A search request with limit 1, an empty category list, and relevance
threshold 0. -/
noncomputable def reqEmptyCats : KnowledgeSearchRequest :=
  ⟨"q", some 1, some [], some 0⟩

/-! ## OpenAIService.analyzeSentiment (src/server/src/services/openai.ts)

The chat-completions call is modelled by its outcome
`callResult : Option (Option String)`: `none` when the HTTP call rejects,
`some none` when it returns no content (the code then throws, landing in the
same `catch`), and `some (some s)` when it returns the reply `s`.
`JSON.parse` followed by the cast to `SentimentData` is an abstract
`parse : String → Option SentimentData`, `none` meaning the text is not
parseable JSON (the parse throws, again landing in the `catch`). -/

/-- The `emotions` record of `SentimentData`. -/
structure EmotionScores where
  anger : ℚ
  joy : ℚ
  fear : ℚ
  sadness : ℚ
  surprise : ℚ
  deriving DecidableEq, Repr

/-- `SentimentData` (src/server/src/types/shared.ts); the numeric fields are
exact rationals. -/
structure SentimentData where
  score : ℚ
  label : String
  confidence : ℚ
  emotions : EmotionScores
  deriving DecidableEq, Repr

/-- The hardcoded neutral fallback sentiment returned by the `catch` block. -/
def neutralSentiment : SentimentData :=
  ⟨0, "neutral", 1 / 2, ⟨0, 0, 0, 0, 0⟩⟩

/-- Markdown code-fence stripping:
`response.replace(/```json\s*/g, '').replace(/```\s*/g, '').trim()`.  The
regex also swallows whitespace after each fence; since JSON parsing is
whitespace-insensitive this model drops only the fences themselves and
trims. -/
def cleanResponse (s : String) : String :=
  ((s.replace "```json" "").replace "```" "").trim

/-- `analyzeSentiment`, as a function of the call outcome and the JSON
parser.  All three failure paths (rejected call, missing content, unparseable
reply) end in the `catch`, which returns the neutral fallback. -/
def analyzeSentiment (callResult : Option (Option String))
    (parse : String → Option SentimentData) : SentimentData :=
  match callResult with
  | none => neutralSentiment
  | some none => neutralSentiment
  | some (some response) =>
      match parse (cleanResponse response) with
      | some d => d
      | none => neutralSentiment

/-! ## VirtualizedList (client performance utilities)

Pixel quantities (`itemHeight`, `containerHeight`, `scrollTop`) are
rationals; `Math.floor`/`Math.ceil` become `Int.floor`/`Int.ceil`.  Under the
DOM invariants `itemHeight > 0`, `scrollTop ≥ 0`, `containerHeight ≥ 0` the
`toNat` coercions are exact.  Rendering is modelled by the list of
`renderItem` applications produced by `visibleItems.map`. -/

/-- `startIndex = Math.floor(scrollTop / itemHeight)`. -/
def vlStartIndex (itemHeight scrollTop : ℚ) : ℕ :=
  (⌊scrollTop / itemHeight⌋).toNat

/-- `endIndex = Math.min(startIndex + Math.ceil(containerHeight / itemHeight) + overscan, items.length)`. -/
def vlEndIndex {T : Type} (items : List T) (itemHeight containerHeight : ℚ)
    (overscan : ℕ) (scrollTop : ℚ) : ℕ :=
  min (vlStartIndex itemHeight scrollTop +
      (⌈containerHeight / itemHeight⌉).toNat + overscan)
    items.length

/-- `totalHeight = items.length * itemHeight`, the height of the inner
container. -/
def vlTotalHeight {T : Type} (items : List T) (itemHeight : ℚ) : ℚ :=
  items.length * itemHeight

/-- `visibleItems = items.slice(startIndex, endIndex)`. -/
def vlVisibleItems {T : Type} (items : List T)
    (itemHeight containerHeight : ℚ) (overscan : ℕ) (scrollTop : ℚ) :
    List T :=
  (items.drop (vlStartIndex itemHeight scrollTop)).take
    (vlEndIndex items itemHeight containerHeight overscan scrollTop -
      vlStartIndex itemHeight scrollTop)

/-- The rendered children:
`visibleItems.map((item, index) => renderItem(item, startIndex + index))`. -/
def vlRender {T R : Type} (renderItem : T → ℕ → R) (items : List T)
    (itemHeight containerHeight : ℚ) (overscan : ℕ) (scrollTop : ℚ) :
    List R :=
  (vlVisibleItems items itemHeight containerHeight overscan scrollTop).enum.map
    fun p => renderItem p.2 (vlStartIndex itemHeight scrollTop + p.1)

/-! ## Helper lemmas -/

/-- The loop accumulator for the squared norm equals the index-wise sum of
squares. -/
theorem sum_map_sq_eq_finSum (v : List ℝ) :
    (v.map fun x => x * x).sum = ∑ i : Fin v.length, v.get i ^ 2 := by
  induction v with
  | nil => simp
  | cons x xs ih =>
      simp [Fin.sum_univ_succ, ih, sq]

/-- The loop accumulator for the dot product equals the index-wise sum of
products (for equal-length vectors). -/
theorem sum_zipWith_mul_eq_finSum (A : List ℝ) :
    ∀ B : List ℝ, A.length = B.length →
      (List.zipWith (fun x y => x * y) A B).sum =
        ∑ i : Fin A.length, A.get i * B.getD i 0 := by
  induction A with
  | nil => intro B _; simp
  | cons x xs ih =>
      intro B hB
      cases B with
      | nil => simp at hB
      | cons y ys =>
          have h' : xs.length = ys.length := by simpa using hB
          simp [Fin.sum_univ_succ, ih ys h']

/-- A sum of squares of reals is nonnegative. -/
theorem sum_map_sq_nonneg (v : List ℝ) : 0 ≤ (v.map fun x => x * x).sum := by
  refine List.sum_nonneg ?_
  intro x hx
  obtain ⟨y, _, rfl⟩ := List.mem_map.1 hx
  exact mul_self_nonneg y

/-- The updated article list of `ensureArticleEmbeddings`, as a map. -/
theorem ensureArticleEmbeddings_fst (env : String → Option (List ℝ))
    (l : List KnowledgeArticle) :
    (ensureArticleEmbeddings env l).1 =
      l.map fun a =>
        if needsEmbedding a then
          { a with embedding := some (generateEmbedding env (embeddingText a)) }
        else a := by
  induction l with
  | nil => rfl
  | cons a rest ih =>
      by_cases h : needsEmbedding a <;>
        simp [ensureArticleEmbeddings, h, ih]

/-- The event trace of `ensureArticleEmbeddings`: one API call followed by one
100ms sleep per article that needs an embedding, in store order. -/
theorem ensureArticleEmbeddings_snd (env : String → Option (List ℝ))
    (l : List KnowledgeArticle) :
    (ensureArticleEmbeddings env l).2 =
      (l.filter needsEmbedding).flatMap fun a =>
        [EmbedEvent.apiCall (embeddingText a), EmbedEvent.sleepMs 100] := by
  induction l with
  | nil => rfl
  | cons a rest ih =>
      by_cases h : needsEmbedding a <;>
        simp [ensureArticleEmbeddings, List.filter_cons, h, ih]

/-- After `ensureArticleEmbeddings`, every article has a defined embedding. -/
theorem ensure_embedding_ne_none (env : String → Option (List ℝ))
    (l : List KnowledgeArticle) :
    ∀ a ∈ (ensureArticleEmbeddings env l).1, a.embedding ≠ none := by
  rw [ensureArticleEmbeddings_fst]
  intro a ha
  obtain ⟨b, _, rfl⟩ := List.mem_map.1 ha
  by_cases h : needsEmbedding b
  · simp [h]
  · simp only [h, if_neg]
    cases hb : b.embedding with
    | none => exact absurd (by simp [needsEmbedding, hb]) h
    | some e => simp [hb]

/-- When every article has a defined embedding, the scoring pass succeeds and
annotates each article with its cosine similarity to the query embedding. -/
theorem scoreArticles_ok (qe : List ℝ) (l : List KnowledgeArticle)
    (h : ∀ a ∈ l, a.embedding ≠ none) :
    scoreArticles qe l =
      Except.ok (l.map fun a =>
        { a with
            relevanceScore :=
              some (calculateCosineSimilarity qe (a.embedding.getD [])) }) := by
  induction l with
  | nil => rfl
  | cons a rest ih =>
      cases ha : a.embedding with
      | none => exact absurd ha (h a (List.mem_cons_self a rest))
      | some e =>
          rw [scoreArticles, ha,
            ih fun b hb => h b (List.mem_cons_of_mem a hb)]
          simp [ha]

/-- The search body never reaches the `catch` handler: it always returns
`searchResult` normally. -/
theorem searchBody_ok (env : String → Option (List ℝ))
    (req : KnowledgeSearchRequest) (arts : List KnowledgeArticle) :
    searchBody env req arts = Except.ok (searchResult env req arts) := by
  rw [searchBody, scoreArticles_ok _ _ (ensure_embedding_ne_none env arts)]
  rfl

/-- `searchArticles` always returns `searchResult`. -/
theorem searchArticles_eq (env : String → Option (List ℝ))
    (req : KnowledgeSearchRequest) (arts : List KnowledgeArticle) :
    searchArticles env req arts = searchResult env req arts := by
  rw [searchArticles, searchBody_ok]

/-- The similarity of the empty vector to anything is 0 (length mismatch, or
zero norm against the empty vector). -/
theorem cos_nil_left (v : List ℝ) : calculateCosineSimilarity [] v = 0 := by
  cases v with
  | nil => simp [calculateCosineSimilarity]
  | cons x xs => simp [calculateCosineSimilarity]

/-- When every API call fails, every scored article carries relevance 0. -/
theorem scoredArticles_envFail_rel {env : String → Option (List ℝ)}
    (hfail : ∀ s, env s = none) (req : KnowledgeSearchRequest)
    (arts : List KnowledgeArticle) :
    ∀ a ∈ scoredArticles env req arts, a.relevanceScore = some 0 := by
  intro a ha
  obtain ⟨b, _, rfl⟩ := List.mem_map.1 ha
  have hq : generateEmbedding env req.query = [] := by
    simp [generateEmbedding, hfail]
  simp [hq, cos_nil_left]

/-- Under a failing API and a zero threshold with no effective category
filter, the search keeps every sample article, so the result length is the
limit capped at 5. -/
theorem searchArticles_envFail_len (req : KnowledgeSearchRequest)
    (hrel : req.minRelevance = some 0)
    (hcats : req.categories = none ∨ req.categories = some []) :
    (searchArticles envFail req sampleArticles).length =
      min (req.limit.getD 5) 5 := by
  rw [searchArticles_eq, searchResult]
  have hall : ∀ a ∈ scoredArticles envFail req sampleArticles,
      keepArticle req a = true := by
    intro a ha
    have h0 := scoredArticles_envFail_rel (fun _ => rfl) req sampleArticles a ha
    rcases hcats with hc | hc <;> simp [keepArticle, h0, hrel, hc]
  rw [List.filter_eq_self.mpr hall, List.length_take, List.length_mergeSort]
  congr 1

/-- Shifting a local enumeration by `s` is enumeration from `s`. -/
theorem enumFrom_map_shift {T R : Type} (f : T → ℕ → R) :
    ∀ (v : List T) (n s : ℕ),
      (v.enumFrom n).map (fun p => f p.2 (s + p.1)) =
        (v.enumFrom (s + n)).map fun p => f p.2 p.1 := by
  intro v
  induction v with
  | nil => intro n s; rfl
  | cons x xs ih =>
      intro n s
      rw [List.enumFrom_cons, List.enumFrom_cons, List.map_cons,
        List.map_cons, ih (n + 1) s]
      have hn : s + (n + 1) = s + n + 1 := by omega
      rw [hn]

/-- The windowed, shift-enumerated render of a slice is exactly the index
range mapped through the original list. -/
theorem enumFrom_take_drop_filterMap {T R : Type} (f : T → ℕ → R) :
    ∀ (m s : ℕ) (l : List T),
      (((l.drop s).take m).enumFrom s).map (fun p => f p.2 p.1) =
        (List.range' s m).filterMap fun i => (l[i]?).map fun x => f x i := by
  intro m
  induction m with
  | zero => intro s l; simp
  | succ m ih =>
      intro s l
      cases hd : l.drop s with
      | nil =>
          have hlen : l.length ≤ s := List.drop_eq_nil_iff.1 hd
          simp only [List.take_nil, List.enumFrom_nil, List.map_nil]
          symm
          rw [List.filterMap_eq_nil_iff]
          intro i hi
          have hi' : l.length ≤ i := le_trans hlen (List.mem_range'_1.1 hi).1
          rw [List.getElem?_eq_none hi']
          rfl
      | cons x rest =>
          have hx : l[s]? = some x := by
            have h0 := List.getElem?_drop l s 0
            rw [hd] at h0
            simpa using h0.symm
          have hrest : rest = l.drop (s + 1) := by
            have ht := List.tail_drop l s
            rw [hd] at ht
            simpa using ht
          rw [List.range'_succ, List.filterMap_cons, hx]
          rw [List.take_succ_cons, List.enumFrom_cons, List.map_cons]
          rw [hrest, ih (s + 1) l]
          rfl

/-! ## Claim theorems -/

/-- C1.  For equal-length vectors with nonzero squared norms,
`calculateCosineSimilarity` returns the standard cosine similarity: the dot
product divided by the product of the Euclidean norms. -/
theorem calculateCosineSimilarity_standard (A B : List ℝ)
    (hlen : A.length = B.length)
    (hA : (∑ i : Fin A.length, A.get i ^ 2) ≠ 0)
    (hB : (∑ i : Fin B.length, B.get i ^ 2) ≠ 0) :
    calculateCosineSimilarity A B =
      (∑ i : Fin A.length, A.get i * B.getD i 0) /
        (euclideanNorm A * euclideanNorm B) := by
  have hA' : (A.map fun x => x * x).sum ≠ 0 := by
    rw [sum_map_sq_eq_finSum]; exact hA
  have hB' : (B.map fun x => x * x).sum ≠ 0 := by
    rw [sum_map_sq_eq_finSum]; exact hB
  rw [calculateCosineSimilarity]
  rw [if_neg (by simp [hlen])]
  simp only []
  rw [if_neg (by push_neg; exact ⟨hA', hB'⟩)]
  rw [sum_zipWith_mul_eq_finSum A B hlen, euclideanNorm, euclideanNorm,
    sum_map_sq_eq_finSum, sum_map_sq_eq_finSum]

/-- C1, witness: the singleton vectors `[1]` and `[1]` satisfy the
hypotheses, and the similarity equals the standard formula there. -/
theorem calculateCosineSimilarity_standard_witness :
    ([1] : List ℝ).length = ([1] : List ℝ).length ∧
      (∑ i : Fin ([1] : List ℝ).length, ([1] : List ℝ).get i ^ 2) ≠ 0 ∧
      calculateCosineSimilarity [1] [1] =
        (∑ i : Fin ([1] : List ℝ).length,
            ([1] : List ℝ).get i * ([1] : List ℝ).getD i 0) /
          (euclideanNorm [1] * euclideanNorm [1]) := by
  refine ⟨rfl, by norm_num [Fin.sum_univ_one], ?_⟩
  exact calculateCosineSimilarity_standard [1] [1] rfl
    (by norm_num [Fin.sum_univ_one]) (by norm_num [Fin.sum_univ_one])

/-- C2, amended.  The service store holds at most 10 (in fact 5) hardcoded
articles, and for every request `searchArticles` returns at most
`limit` (default 5) articles, each scoring at least `minRelevance`
(default 0.7), each belonging to a listed category whenever a **nonempty**
category list is given, sorted by descending relevance, and each being a
store article (after embedding ensurement) annotated with its cosine
similarity to the query embedding. -/
theorem searchArticles_scan_spec :
    sampleArticles.length ≤ 10 ∧
      ∀ (env : String → Option (List ℝ)) (req : KnowledgeSearchRequest),
        (searchArticles env req sampleArticles).length ≤ req.limit.getD 5 ∧
          List.Forall
            (fun a => req.minRelevance.getD (7 / 10 : ℝ) ≤
              a.relevanceScore.getD 0)
            (searchArticles env req sampleArticles) ∧
          List.Forall
            (fun a => req.categories.getD [] = [] ∨
              a.category ∈ req.categories.getD [])
            (searchArticles env req sampleArticles) ∧
          List.Sorted (fun x y : ℝ => y ≤ x)
            ((searchArticles env req sampleArticles).map fun a =>
              a.relevanceScore.getD 0) ∧
          List.Forall
            (fun a => ∃ b, b ∈ (ensureArticleEmbeddings env sampleArticles).1 ∧
              a = { b with
                    relevanceScore :=
                      some (calculateCosineSimilarity
                        (generateEmbedding env req.query)
                        (b.embedding.getD [])) })
            (searchArticles env req sampleArticles) := by
  refine ⟨by decide, fun env req => ?_⟩
  have hmem : ∀ a ∈ searchArticles env req sampleArticles,
      a ∈ scoredArticles env req sampleArticles ∧ keepArticle req a = true := by
    intro a ha
    rw [searchArticles_eq, searchResult] at ha
    have h1 := List.Sublist.mem ha (List.take_sublist _ _)
    exact List.mem_filter.1 (List.mem_mergeSort.1 h1)
  refine ⟨?_, ?_, ?_, ?_, ?_⟩
  · rw [searchArticles_eq, searchResult]
    exact List.length_take_le _ _
  · rw [List.forall_iff_forall_mem]
    intro a ha
    obtain ⟨-, hkeep⟩ := hmem a ha
    by_cases hlt : a.relevanceScore.getD 0 < req.minRelevance.getD (7 / 10 : ℝ)
    · simp [keepArticle, hlt] at hkeep
    · exact le_of_not_lt hlt
  · rw [List.forall_iff_forall_mem]
    intro a ha
    obtain ⟨-, hkeep⟩ := hmem a ha
    cases hc : req.categories with
    | none => left; simp [hc]
    | some cats =>
        cases cats with
        | nil => left; simp [hc]
        | cons c cs =>
            right
            have hcontains : (c :: cs).contains a.category = true := by
              by_cases hlt : a.relevanceScore.getD 0 <
                  req.minRelevance.getD (7 / 10 : ℝ)
              · simp [keepArticle, hlt, hc] at hkeep
              · simpa [keepArticle, hlt, hc] using hkeep
            simp [hc]
            simpa using hcontains
  · have htrans : ∀ a b c : KnowledgeArticle,
        relevanceDescending a b = true → relevanceDescending b c = true →
          relevanceDescending a c = true := by
      intro a b c h1 h2
      simp only [relevanceDescending, decide_eq_true_eq] at *
      exact le_trans h2 h1
    have htotal : ∀ a b : KnowledgeArticle,
        (relevanceDescending a b || relevanceDescending b a) = true := by
      intro a b
      simp only [relevanceDescending, Bool.or_eq_true, decide_eq_true_eq]
      exact le_total _ _
    have hsorted := List.sorted_mergeSort htrans htotal
      ((scoredArticles env req sampleArticles).filter (keepArticle req))
    rw [searchArticles_eq, searchResult, List.Sorted, List.pairwise_map]
    refine (List.Pairwise.sublist (List.take_sublist _ _) hsorted).imp ?_
    intro a b h
    simpa [relevanceDescending, decide_eq_true_eq] using h
  · rw [List.forall_iff_forall_mem]
    intro a ha
    obtain ⟨hscored, -⟩ := hmem a ha
    obtain ⟨b, hb, rfl⟩ := List.mem_map.1 hscored
    exact ⟨b, hb, rfl⟩

/-- C2, counterexample.  With an **empty** category list supplied, the code
skips the category filter entirely (`categories.length > 0` fails), so a
search under a zero threshold returns an article whose category is certainly
not listed in the empty list — contradicting the claim read literally for
every given category list. -/
theorem searchArticles_empty_categories_cex :
    ¬ List.Forall (fun a => a.category ∈ ([] : List String))
        (searchArticles envFail reqEmptyCats sampleArticles) := by
  intro h
  have hne : searchArticles envFail reqEmptyCats sampleArticles ≠ [] := by
    apply List.ne_nil_of_length_pos
    rw [searchArticles_envFail_len reqEmptyCats rfl (Or.inr rfl)]
    simp [reqEmptyCats]
  obtain ⟨x, hx⟩ := List.exists_mem_of_ne_nil _ hne
  exact absurd ((List.forall_iff_forall_mem.1 h) x hx) (by simp)

/-- C3, amended.  `searchArticles` never throws: its body always returns
normally (so the `catch` is never reached), and when every embedding API call
fails **and the relevance threshold is positive** (as it is by default) the
result is the empty array. -/
theorem searchArticles_no_throw_spec (env : String → Option (List ℝ))
    (req : KnowledgeSearchRequest) (arts : List KnowledgeArticle) :
    searchBody env req arts = Except.ok (searchArticles env req arts) ∧
      ((∀ s, env s = none) → 0 < req.minRelevance.getD (7 / 10 : ℝ) →
        searchArticles env req arts = []) := by
  constructor
  · rw [searchArticles_eq]
    exact searchBody_ok env req arts
  · intro hfail hpos
    rw [searchArticles_eq, searchResult]
    have hfilter : (scoredArticles env req arts).filter (keepArticle req) = [] := by
      rw [List.filter_eq_nil_iff]
      intro a ha
      have hrel := scoredArticles_envFail_rel hfail req arts a ha
      simp [keepArticle, hrel, hpos]
    rw [hfilter, List.mergeSort_nil, List.take_nil]

/-- C3, witness: the failing API with the default request yields the empty
result. -/
theorem searchArticles_no_throw_witness :
    searchArticles envFail reqDefault sampleArticles = [] :=
  (searchArticles_no_throw_spec envFail reqDefault sampleArticles).2
    (fun _ => rfl) (by norm_num [reqDefault])

/-- C3, counterexample.  With a failing embeddings API and
`minRelevance: 0`, every article scores 0, which passes the zero threshold,
so `searchArticles` returns the full (scored) sample store — not the empty
array the claim promises on failure. -/
theorem searchArticles_silent_failure_cex :
    searchArticles envFail reqZeroMinRel sampleArticles ≠ [] := by
  apply List.ne_nil_of_length_pos
  rw [searchArticles_envFail_len reqZeroMinRel rfl (Or.inl rfl)]
  simp [reqZeroMinRel]

/-- C4.  `ensureArticleEmbeddings` is lazy: the updated store recomputes
exactly the absent-or-empty embeddings and leaves the rest unchanged, and
the effect trace is one embedding API call followed by one 100ms sleep per
article that needed an embedding, in store order. -/
theorem ensureArticleEmbeddings_lazy_spec :
    ∀ (env : String → Option (List ℝ)) (arts : List KnowledgeArticle),
      (ensureArticleEmbeddings env arts).1 =
          (arts.map fun a =>
            if needsEmbedding a then
              { a with
                  embedding := some (generateEmbedding env (embeddingText a)) }
            else a) ∧
        (ensureArticleEmbeddings env arts).2 =
          ((arts.filter needsEmbedding).flatMap fun a =>
            [EmbedEvent.apiCall (embeddingText a), EmbedEvent.sleepMs 100]) :=
  fun env arts =>
    ⟨ensureArticleEmbeddings_fst env arts, ensureArticleEmbeddings_snd env arts⟩

/-- C5, amended.  For every stored item: if the ttl is absent **or zero**, or
the age does not exceed the (nonzero) ttl, `getCache` returns the data and
leaves the store unchanged; if the ttl is nonzero and the age exceeds it,
`getCache` returns `none` and removes the item. -/
theorem getCache_expiry_spec {T : Type} (now : ℤ) (key : String)
    (s : CacheStore T) (item : CacheItem T) (h : s key = some item) :
    (jsFalsyTtl item.ttl = true → getCache now key s = (some item.data, s)) ∧
      (jsFalsyTtl item.ttl = false → now - item.timestamp ≤ item.ttl.getD 0 →
        getCache now key s = (some item.data, s)) ∧
      (jsFalsyTtl item.ttl = false → item.ttl.getD 0 < now - item.timestamp →
        getCache now key s = (none, removeCacheItem key s)) := by
  refine ⟨fun hf => ?_, fun hf hle => ?_, fun hf hlt => ?_⟩ <;>
    simp [getCache, h, isExpired, hf]
  · omega
  · omega

/-- C5, witness: a fresh item (ttl 10, age 5) is returned with the store
untouched. -/
theorem getCache_expiry_witness :
    zeroTtlFreshStore "k" = some ⟨3, 0, some 10⟩ ∧
      jsFalsyTtl (some (10 : ℤ)) = false ∧
      (5 : ℤ) - 0 ≤ (10 : ℤ) ∧
      getCache 5 "k" zeroTtlFreshStore = (some 3, zeroTtlFreshStore) := by
  exact ⟨rfl, by decide, by decide,
    (getCache_expiry_spec 5 "k" zeroTtlFreshStore ⟨3, 0, some 10⟩ rfl).2.1
      (by decide) (by decide)⟩

/-- C5, counterexample.  The claim says: when the age exceeds the ttl,
`getCache` returns null and removes the item.  At `ttl = 0` and age `5` the
age exceeds the ttl, yet the code returns the cached data, because `!item.ttl`
treats a zero ttl as "no ttl". -/
theorem getCache_zero_ttl_cex :
    zeroTtlStore "k" = some ⟨7, 0, some 0⟩ ∧
      0 < (5 : ℤ) - (0 : ℤ) ∧
      (getCache 5 "k" zeroTtlStore).1 = some 7 := by
  refine ⟨rfl, by decide, rfl⟩

/-- C6, amended.  `withCache` treats an entry as fresh exactly when
`isExpired` reports it unexpired **and** the age is not exactly equal to a
truthy ttl; at the boundary `now - timestamp = ttl ≠ 0` the two checks
disagree (`withCache` stale, `isExpired` unexpired), and everywhere else they
agree. -/
theorem withCache_isExpired_agreement {T : Type} (now : ℤ) (item : CacheItem T) :
    withCacheFresh now item = true ↔
      (isExpired now item = false ∧
        (jsFalsyTtl item.ttl = true ∨ now - item.timestamp ≠ item.ttl.getD 0)) := by
  by_cases hf : jsFalsyTtl item.ttl = true
  · simp [withCacheFresh, isExpired, hf]
  · have hf' : jsFalsyTtl item.ttl = false := by
      cases h : jsFalsyTtl item.ttl
      · rfl
      · exact absurd h hf
    simp [withCacheFresh, isExpired, hf']
    omega

/-- C6, counterexample.  At age exactly equal to a nonzero ttl, `withCache`
treats the entry as stale (strict `<`) while `isExpired` reports it unexpired
(strict `>`), so the two checks are not equivalent. -/
theorem withCache_isExpired_boundary_cex :
    ¬ (withCacheFresh 1000 (⟨0, 0, some 1000⟩ : CacheItem ℤ) = true ↔
        isExpired 1000 (⟨0, 0, some 1000⟩ : CacheItem ℤ) = false) := by
  decide

/-- C7.  With a positive item height and nonnegative scroll offset and
container height, `VirtualizedList` renders exactly the items with indices
from `floor(scrollTop / itemHeight)` up to
`min(startIndex + ceil(containerHeight / itemHeight) + overscan, items.length) - 1`,
passing each to `renderItem` with its original index, inside an inner
container of total height `items.length * itemHeight`. -/
theorem virtualizedList_spec {T R : Type} (items : List T)
    (itemHeight containerHeight scrollTop : ℚ) (overscan : ℕ)
    (renderItem : T → ℕ → R) (_hih : 0 < itemHeight) (_hst : 0 ≤ scrollTop)
    (_hch : 0 ≤ containerHeight) :
    vlRender renderItem items itemHeight containerHeight overscan scrollTop =
        (List.range' (⌊scrollTop / itemHeight⌋).toNat
            (min ((⌊scrollTop / itemHeight⌋).toNat +
                (⌈containerHeight / itemHeight⌉).toNat + overscan)
              items.length -
              (⌊scrollTop / itemHeight⌋).toNat)).filterMap
          (fun i => (items[i]?).map fun x => renderItem x i) ∧
      vlTotalHeight items itemHeight = items.length * itemHeight := by
  refine ⟨?_, rfl⟩
  have h0 : vlRender renderItem items itemHeight containerHeight overscan
      scrollTop =
      (((items.drop (vlStartIndex itemHeight scrollTop)).take
            (vlEndIndex items itemHeight containerHeight overscan scrollTop -
              vlStartIndex itemHeight scrollTop)).enumFrom
          (vlStartIndex itemHeight scrollTop)).map
        fun p => renderItem p.2 p.1 := by
    rw [vlRender, vlVisibleItems]
    have := enumFrom_map_shift renderItem
      ((items.drop (vlStartIndex itemHeight scrollTop)).take
        (vlEndIndex items itemHeight containerHeight overscan scrollTop -
          vlStartIndex itemHeight scrollTop))
      0 (vlStartIndex itemHeight scrollTop)
    simpa [List.enum] using this
  rw [h0, enumFrom_take_drop_filterMap]
  rfl

/-- C7, witness: items `[10, 20, 30]`, item height 5, container height 7,
overscan 1, scroll offset 6 — the window is indices 1 and 2. -/
theorem virtualizedList_spec_witness :
    (0 : ℚ) < 5 ∧ (0 : ℚ) ≤ 6 ∧ (0 : ℚ) ≤ 7 ∧
      (vlRender (fun (x i : ℕ) => (x, i)) [10, 20, 30] 5 7 1 6 =
          (List.range' (⌊(6 : ℚ) / 5⌋).toNat
              (min ((⌊(6 : ℚ) / 5⌋).toNat + (⌈(7 : ℚ) / 5⌉).toNat + 1)
                ([10, 20, 30] : List ℕ).length -
                (⌊(6 : ℚ) / 5⌋).toNat)).filterMap
            (fun i => (([10, 20, 30] : List ℕ)[i]?).map fun x => (x, i)) ∧
        vlTotalHeight ([10, 20, 30] : List ℕ) (5 : ℚ) =
          ([10, 20, 30] : List ℕ).length * 5) :=
  ⟨by decide, by decide, by decide,
    virtualizedList_spec [10, 20, 30] 5 7 6 1 (fun x i => (x, i))
      (by decide) (by decide) (by decide)⟩

/-- C8.  `calculateCosineSimilarity` is total and never divides by zero: a
length mismatch yields 0, a zero squared norm on either side yields 0, and in
the remaining case the divisor (the product of the square roots of the two
squared norms) is nonzero. -/
theorem calculateCosineSimilarity_total :
    (∀ A B : List ℝ, A.length ≠ B.length → calculateCosineSimilarity A B = 0) ∧
      (∀ A B : List ℝ,
        (A.map fun x => x * x).sum = 0 ∨ (B.map fun x => x * x).sum = 0 →
        calculateCosineSimilarity A B = 0) ∧
      (∀ A B : List ℝ,
        (A.map fun x => x * x).sum ≠ 0 → (B.map fun x => x * x).sum ≠ 0 →
        Real.sqrt ((A.map fun x => x * x).sum) *
          Real.sqrt ((B.map fun x => x * x).sum) ≠ 0) := by
  refine ⟨fun A B h => ?_, fun A B h => ?_, fun A B hA hB => ?_⟩
  · rw [calculateCosineSimilarity, if_pos h]
  · rw [calculateCosineSimilarity]
    by_cases hlen : A.length ≠ B.length
    · rw [if_pos hlen]
    · rw [if_neg hlen]
      simp only []
      rw [if_pos h]
  · have hA' : 0 < (A.map fun x => x * x).sum :=
      lt_of_le_of_ne (sum_map_sq_nonneg A) (Ne.symm hA)
    have hB' : 0 < (B.map fun x => x * x).sum :=
      lt_of_le_of_ne (sum_map_sq_nonneg B) (Ne.symm hB)
    exact ne_of_gt (mul_pos (Real.sqrt_pos.2 hA') (Real.sqrt_pos.2 hB'))

/-- C8, witness: concrete inputs exercising each of the three parts. -/
theorem calculateCosineSimilarity_total_witness :
    ([1] : List ℝ).length ≠ ([] : List ℝ).length ∧
      calculateCosineSimilarity [1] [] = 0 ∧
      (([0] : List ℝ).map fun x => x * x).sum = 0 ∧
      calculateCosineSimilarity [0] [0] = 0 ∧
      (([1] : List ℝ).map fun x => x * x).sum ≠ 0 ∧
      Real.sqrt ((([1] : List ℝ).map fun x => x * x).sum) *
        Real.sqrt ((([1] : List ℝ).map fun x => x * x).sum) ≠ 0 := by
  refine ⟨by simp, calculateCosineSimilarity_total.1 [1] [] (by simp),
    by norm_num, calculateCosineSimilarity_total.2.1 [0] [0] (by norm_num),
    by norm_num, calculateCosineSimilarity_total.2.2 [1] [1] (by norm_num)
      (by norm_num)⟩

/-- C9.  `getAllArticles`, `getArticleById` and `getArticlesByCategory`
strip the embedding from everything they return, while `searchArticles`
returns matched articles still carrying their stored (post-ensurement,
defined) embedding vectors. -/
theorem embedding_stripping_spec :
    ∀ (arts : List KnowledgeArticle) (id category : String)
      (env : String → Option (List ℝ)) (req : KnowledgeSearchRequest),
      List.Forall (fun a => a.embedding = none) (getAllArticles arts) ∧
        List.Forall (fun a => a.embedding = none)
          (getArticleById id arts).toList ∧
        List.Forall (fun a => a.embedding = none)
          (getArticlesByCategory category arts) ∧
        List.Forall
          (fun a => ∃ b, b ∈ (ensureArticleEmbeddings env arts).1 ∧
            a.embedding = b.embedding ∧ a.embedding ≠ none)
          (searchArticles env req arts) := by
  intro arts id category env req
  refine ⟨?_, ?_, ?_, ?_⟩
  · rw [List.forall_iff_forall_mem]
    intro x hx
    obtain ⟨b, -, rfl⟩ := List.mem_map.1 hx
    rfl
  · rw [List.forall_iff_forall_mem]
    intro x hx
    cases hfind : arts.find? fun a => a.id == id with
    | none => simp [getArticleById, hfind] at hx
    | some b =>
        have : x = { b with embedding := none } := by
          simpa [getArticleById, hfind] using hx
        rw [this]
  · rw [List.forall_iff_forall_mem]
    intro x hx
    obtain ⟨b, -, rfl⟩ := List.mem_map.1 hx
    rfl
  · rw [List.forall_iff_forall_mem]
    intro x hx
    rw [searchArticles_eq, searchResult] at hx
    have h1 := List.Sublist.mem hx (List.take_sublist _ _)
    have h2 := (List.mem_filter.1 (List.mem_mergeSort.1 h1)).1
    obtain ⟨b, hb, rfl⟩ := List.mem_map.1 h2
    exact ⟨b, hb, rfl, ensure_embedding_ne_none env arts b hb⟩

/-- C10.  `analyzeSentiment` never throws: whenever the provider call fails,
returns no content, or returns a reply that is not parseable JSON after
stripping code fences, it returns the fixed neutral fallback (score 0, label
"neutral", confidence 0.5, all five emotions 0). -/
theorem analyzeSentiment_fallback_spec (callResult : Option (Option String))
    (parse : String → Option SentimentData)
    (h : callResult = none ∨ callResult = some none ∨
      ∃ s, callResult = some (some s) ∧ parse (cleanResponse s) = none) :
    analyzeSentiment callResult parse = neutralSentiment ∧
      neutralSentiment.score = 0 ∧
      neutralSentiment.label = "neutral" ∧
      neutralSentiment.confidence = 1 / 2 ∧
      neutralSentiment.emotions = ⟨0, 0, 0, 0, 0⟩ := by
  refine ⟨?_, rfl, rfl, rfl, rfl⟩
  rcases h with rfl | rfl | ⟨s, rfl, hp⟩
  · rfl
  · rfl
  · simp [analyzeSentiment, hp]

/-- C10, witness: a rejected provider call yields the neutral fallback. -/
theorem analyzeSentiment_fallback_witness :
    analyzeSentiment none (fun _ => none) = neutralSentiment :=
  (analyzeSentiment_fallback_spec none (fun _ => none) (Or.inl rfl)).1
